import Mathlib

/-!
Verification of the SYNTHIA-Cityscapes dataset driver
(`xview/datasets/synthia_cityscapes.py`): label remapping, one-hot
encoding, the augmentation pipeline of `_get_data`, split handling in
`__init__` / `_preprocessing`, and the configuration dictionary.

Arrays are embedded as a shape (`h`, `w`) together with a total pixel
function; machine floats of the source are embedded as rationals.
-/

namespace Synthia

/-- A 2-dimensional array of pixels of type `α`: a height, a width, and a
total pixel function (indices outside the shape are irrelevant). -/
structure Arr (α : Type) where
  h : ℕ
  w : ℕ
  pix : ℕ → ℕ → α

/-- The label information table of the source (`LABELINFO`): canonical
class code, name, RGB color. -/
def LABELINFO : List (ℕ × String × (List ℕ)) :=
  [(0, "void", [0, 0, 0]),
   (1, "sky", [128, 128, 128]),
   (2, "building", [128, 0, 0]),
   (3, "road", [128, 64, 128]),
   (4, "sidewalk", [0, 0, 192]),
   (5, "fence", [64, 64, 128]),
   (6, "vegetation", [128, 128, 0]),
   (7, "pole", [192, 192, 128]),
   (8, "car", [64, 0, 128]),
   (9, "traffic sign", [192, 128, 128]),
   (10, "pedestrian", [64, 64, 0]),
   (11, "bicycle", [0, 128, 192]),
   (12, "lanemarking", [0, 192, 0])]

/-- The canonical class count: the number of entries of `LABELINFO`. -/
def numClasses : ℕ := LABELINFO.length

/-- One pointwise substitution step: the numpy statement
`labels[labels == src] = tgt` of `_get_data` rewrites every pixel value
equal to `src` into `tgt`. -/
def remapStep (x : ℕ) (p : ℕ × ℕ) : ℕ := if x = p.1 then p.2 else x

/-- The eleven in-place substitutions of `_get_data`, in source order
(the "dirty fix for the class mappings as in adapnet paper"). -/
def remapTable : List (ℕ × ℕ) :=
  [(12, 11), (13, 12), (14, 0), (15, 7), (16, 0), (17, 11),
   (18, 8), (19, 8), (20, 0), (21, 0), (22, 12)]

/-- The label remapping of `_get_data` on one pixel value: the
substitution sequence applied in source order. -/
def remap (x : ℕ) : ℕ := remapTable.foldl remapStep x

/-- The remapping table as the spec states it (spec section 3 and claim
C1): raw codes 0-11 unchanged, 12 to 11, 13 to 12, 14 to 0, 15 to 7,
16 to 0, 17 to 11, 18 to 8, 19 to 8, 20 to 0, 21 to 0, 22 to 12. -/
def specRemap (x : ℕ) : ℕ :=
  if x ≤ 11 then x
  else if x = 12 then 11
  else if x = 13 then 12
  else if x = 14 then 0
  else if x = 15 then 7
  else if x = 16 then 0
  else if x = 17 then 11
  else if x = 18 then 8
  else if x = 19 then 8
  else if x = 20 then 0
  else if x = 21 then 0
  else if x = 22 then 12
  else x

/-- The remapping applied to a whole label array, pointwise: this is the
array state after the eleven numpy substitution statements. -/
def remapArr (a : Arr ℕ) : Arr ℕ := ⟨a.h, a.w, fun i j => remap (a.pix i j)⟩

/-- Modelled from the spec: `one_hot_lookup` is referenced by `_get_data`
but defined elsewhere in the repository (not under `src/`).  Per the spec
the one-hot trailing axis is "sized to the canonical class count", so the
lookup is the arange `0, ..., numClasses - 1`. -/
def one_hot_lookup : List ℕ := List.range numClasses

/-- The numpy expression `one_hot_lookup == v` for a scalar label `v`:
a 0/1 vector along the new trailing axis (`.astype(int)` of the boolean
comparison). -/
def oneHot (v : ℕ) : List ℕ := one_hot_lookup.map (fun c => if c = v then 1 else 0)

/-- The one-hot conversion of `_get_data` applied to a label array:
every pixel is replaced by its indicator vector along a new trailing
axis. -/
def oneHotArr (a : Arr ℕ) : Arr (List ℕ) := ⟨a.h, a.w, fun i j => oneHot (a.pix i j)⟩

/-- Helper for `argmax`: scans the remaining list, keeping the first
index attaining the maximum (numpy tie-breaking). -/
def argmaxAux : List ℕ → ℕ → ℕ → ℕ → ℕ
  | [], _, best, _ => best
  | v :: rest, i, best, bestv =>
      if bestv < v then argmaxAux rest (i + 1) i v else argmaxAux rest (i + 1) best bestv

/-- Index of the first maximal element of a list (`np.argmax` along the
trailing axis; 0 on the empty list). -/
def argmax : List ℕ → ℕ
  | [] => 0
  | v :: rest => argmaxAux rest 1 0 v

/-- Helper: the substitution sequence agrees with the spec table and
stays within the canonical range on every raw code below 23. -/
theorem remap_table_ball : ∀ x < 23, remap x = specRemap x ∧ remap x ≤ 12 := by decide

/-- Helper: `argmax` inverts `oneHot` on every canonical value. -/
theorem argmax_oneHot_ball : ∀ v < numClasses, argmax (oneHot v) = v := by decide

/-- CLAIM C1 (label remapping table): the remapping performed by
`_get_data` is a deterministic total function on raw codes 0-22 equal to
the table stated by the spec, its outputs lie in the canonical range
0-12, and on a label array it acts pointwise (each pixel is remapped
exactly once, before any augmentation: `getDataTrain` below feeds
`remapArr raw.labels` into the augmentation stage). -/
theorem remap_matches_spec_table (x : ℕ) (hx : x < 23) :
    remap x = specRemap x ∧ remap x ≤ 12 ∧
    ∀ (a : Arr ℕ) (i j : ℕ), a.pix i j = x → (remapArr a).pix i j = specRemap x := by
  refine ⟨(remap_table_ball x hx).1, (remap_table_ball x hx).2, ?_⟩
  intro a i j hpix
  simp [remapArr, hpix, (remap_table_ball x hx).1]

/-- Witness for C1 at the concrete raw code 13 and a constant array. -/
theorem remap_matches_spec_table_witness :
    remap 13 = specRemap 13 ∧ remap 13 ≤ 12 ∧
    ∀ (a : Arr ℕ) (i j : ℕ), a.pix i j = 13 → (remapArr a).pix i j = specRemap 13 :=
  remap_matches_spec_table 13 (by decide)

/-- CLAIM C2, counterexample: the remapping is not idempotent.  Raw code
13 maps to canonical 12, but a second application of the substitution
sequence sends 12 to 11. -/
theorem remap_not_idempotent_at_13 : remap (remap 13) ≠ remap 13 := by decide

/-- CLAIM C2, amended: for every raw code 0-22, the second application of
the remapping is a no-op unless the first produced canonical code 12
(raw codes 13 and 22), in which case the second application yields 11,
because canonical code 12 collides with raw code 12 (motorcycle). -/
theorem remap_almost_idempotent (x : ℕ) (hx : x < 23) :
    remap (remap x) = if remap x = 12 then 11 else remap x := by
  revert hx; revert x; decide

/-- Witness for the amended C2 at raw code 5 (a fixed point). -/
theorem remap_almost_idempotent_witness :
    remap (remap 5) = if remap 5 = 12 then 11 else remap 5 :=
  remap_almost_idempotent 5 (by decide)

/-- CLAIM C3 (one-hot round trip): for every canonical label value, the
one-hot vector produced along the new trailing axis has length
`numClasses`, and `argmax` over that axis reconstructs the value; hence
on a canonical label array the conversion of `_get_data` is inverted
pointwise by `argmax`. -/
theorem one_hot_round_trip (v : ℕ) (hv : v < numClasses) :
    (oneHot v).length = numClasses ∧ argmax (oneHot v) = v ∧
    ∀ (a : Arr ℕ) (i j : ℕ), a.pix i j = v →
      argmax ((oneHotArr a).pix i j) = a.pix i j := by
  refine ⟨?_, argmax_oneHot_ball v hv, ?_⟩
  · revert hv; revert v; decide
  · intro a i j hpix
    simp [oneHotArr, hpix, argmax_oneHot_ball v hv]

/-- Witness for C3 at the concrete canonical value 5. -/
theorem one_hot_round_trip_witness :
    (oneHot 5).length = numClasses ∧ argmax (oneHot 5) = 5 ∧
    ∀ (a : Arr ℕ) (i j : ℕ), a.pix i j = 5 →
      argmax ((oneHotArr a).pix i j) = a.pix i j :=
  one_hot_round_trip 5 (by decide)

/-- Rounding to the nearest integer as cv2 computes output sizes
(`round(dim * factor)`), as a natural number. -/
def natRound (q : ℚ) : ℕ := Int.toNat ⌊q + 1 / 2⌋

/-- Output dimension of `cv2.resize(img, None, fx=k, fy=k)` along one
axis. -/
def resizedDim (n : ℕ) (k : ℚ) : ℕ := natRound ((n : ℚ) * k)

/-- Nearest-neighbour source index for destination index `i` under scale
factor `k`, clamped into the source range `0 .. n-1`. -/
def nearestSrc (k : ℚ) (n i : ℕ) : ℕ := min (n - 1) (Int.toNat ⌊(i : ℚ) / k⌋)

/-- Nearest-neighbour resize by factor `k` in both axes
(`cv2.resize(..., interpolation=cv2.INTER_NEAREST)`, used for depth and
labels). -/
def resizeNN {α : Type} (k : ℚ) (a : Arr α) : Arr α :=
  ⟨resizedDim a.h k, resizedDim a.w k,
   fun i j => a.pix (nearestSrc k a.h i) (nearestSrc k a.w j)⟩

/-- Clamp an integer source coordinate into `0 .. n-1` (cv2 replicates
the border). -/
def clampIdx (n : ℕ) (z : ℤ) : ℕ := min (n - 1) z.toNat

/-- Exact source coordinate of destination index `i` under scale factor
`k`, with the half-pixel convention of cv2. -/
def srcCoord (k : ℚ) (i : ℕ) : ℚ := ((i : ℚ) + 1 / 2) / k - 1 / 2

/-- Bilinear resize by factor `k` (the default interpolation of
`cv2.resize`, used for the RGB image), with exact rational weights. -/
def resizeLinear (k : ℚ) (a : Arr (Fin 3 → ℚ)) : Arr (Fin 3 → ℚ) :=
  ⟨resizedDim a.h k, resizedDim a.w k, fun i j c =>
    let y := srcCoord k i
    let x := srcCoord k j
    let fy := y - ⌊y⌋
    let fx := x - ⌊x⌋
    let v00 := a.pix (clampIdx a.h ⌊y⌋) (clampIdx a.w ⌊x⌋) c
    let v01 := a.pix (clampIdx a.h ⌊y⌋) (clampIdx a.w (⌊x⌋ + 1)) c
    let v10 := a.pix (clampIdx a.h (⌊y⌋ + 1)) (clampIdx a.w ⌊x⌋) c
    let v11 := a.pix (clampIdx a.h (⌊y⌋ + 1)) (clampIdx a.w (⌊x⌋ + 1)) c
    (1 - fy) * ((1 - fx) * v00 + fx * v01) + fy * ((1 - fx) * v10 + fx * v11)⟩

/-- Length of the Python slice `a[start : start + len]` along an axis of
size `n` (truncated at the end of the axis; empty when `start ≥ n`). -/
def sliceLen (n start len : ℕ) : ℕ := min len (n - start)

/-- The crop `b[hc : hc + c, wc : wc + c, ...]` of `_get_data`. -/
def cropArr {α : Type} (hc wc c : ℕ) (a : Arr α) : Arr α :=
  ⟨sliceLen a.h hc c, sliceLen a.w wc c, fun i j => a.pix (hc + i) (wc + j)⟩

/-- The numpy flip along axis 0 (`np.flip(b, axis=0)`: row order
reversed). -/
def flipRows {α : Type} (a : Arr α) : Arr α :=
  ⟨a.h, a.w, fun i j => a.pix (a.h - 1 - i) j⟩

/-- The numpy flip along axis 1 (`np.flip(b, axis=1)`: column order
reversed). -/
def flipCols {α : Type} (a : Arr α) : Arr α :=
  ⟨a.h, a.w, fun i j => a.pix i (a.w - 1 - j)⟩

/-- Apply a value transformation to every pixel (shape unchanged). -/
def mapPix {α β : Type} (f : α → β) (a : Arr α) : Arr β := ⟨a.h, a.w, fun i j => f (a.pix i j)⟩

/-- The trailing singleton channel axis added to depth by
`np.expand_dims` (the source format omits the channel dimension). -/
def expandDims (a : Arr ℕ) : Arr (Fin 1 → ℕ) := ⟨a.h, a.w, fun i j _ => a.pix i j⟩

/-- The slice `a[:hC, :wC, ...]` of the final dimension normalization:
pixels are unchanged, only trailing rows and columns are dropped. -/
def takeArr {α : Type} (hC wC : ℕ) (a : Arr α) : Arr α := ⟨min hC a.h, min wC a.w, a.pix⟩

/-- The three modality arrays of one sample while still in raw 2-d
layout (RGB channels resolved by the pixel type). -/
structure RawBlob where
  rgb : Arr (Fin 3 → ℚ)
  depth : Arr ℕ
  labels : Arr ℕ

/-- The blob returned by `_get_data` with `training_format=True`: RGB,
depth with its singleton channel axis, one-hot labels. -/
structure TrainBlob where
  rgb : Arr (Fin 3 → ℚ)
  depth : Arr (Fin 1 → ℕ)
  labels : Arr (List ℕ)

/-- The blob returned by `_get_data` with `training_format=False`: RGB,
depth with its singleton channel axis, flat canonical labels. -/
structure EvalBlob where
  rgb : Arr (Fin 3 → ℚ)
  depth : Arr (Fin 1 → ℕ)
  labels : Arr ℕ

/-- The typed augmentation configuration entries read by `_get_data`
from `self.config['augmentation']` (Python falsy values disable a
stage, embedded as `none` / `false`). -/
structure AugCfg where
  scale : Option (ℚ × ℚ)
  crop : Option ℕ
  hflip : Bool
  vflip : Bool
  gamma : Option (ℚ × ℚ)

/-- The random draws of one `_get_data` call, one per source random call
site: `tScale` is the unit draw behind `random.uniform` for the scale
factor, `hc` / `wc` the two `random.randint` crop offsets, the two
booleans the `np.random.choice([0, 1])` flip draws, and `gammaMap` the
value lookup table built from the gamma draw (its floating-point power
curve is kept abstract as the drawn value map, applied to RGB only). -/
structure AugRand where
  tScale : ℚ
  hc : ℕ
  wc : ℕ
  hflipDraw : Bool
  vflipDraw : Bool
  gammaMap : ℚ → ℚ

/-- The value of `random.uniform(a, b)` at unit draw `t` in `[0, 1]`:
`a + (b - a) * t` (Python does not require `a ≤ b`). -/
def uniformDraw (a b t : ℚ) : ℚ := a + (b - a) * t

/-- The minimum feasible scale factor computed by `_get_data`:
`crop / min(h, w)`. -/
def minScale (crop h w : ℕ) : ℚ := (crop : ℚ) / (min h w : ℕ)

/-- The scale factor `k = random.uniform(max(min_scale, scale[0]),
scale[1])` of `_get_data`, as a function of the unit draw. -/
def scaleDraw (s0 s1 : ℚ) (crop h w : ℕ) (t : ℚ) : ℚ :=
  uniformDraw (max (minScale crop h w) s0) s1 t

/-- Precondition of `random.randint(lo, hi)`: the range must be
non-empty, otherwise Python raises `ValueError`. -/
def randintRangeOk (lo hi : ℤ) : Prop := lo ≤ hi

/-- Scale stage of `_get_data` (`if scale and crop:`): all three
modalities are resized by the single drawn factor, RGB with the default
bilinear interpolation, depth and labels with nearest-neighbour; the
minimum feasible factor is computed from the RGB shape. -/
def augmentScale (cfg : AugCfg) (r : AugRand) (b : RawBlob) : RawBlob :=
  match cfg.scale, cfg.crop with
  | some (s0, s1), some crop =>
      let k := scaleDraw s0 s1 crop b.rgb.h b.rgb.w r.tScale
      ⟨resizeLinear k b.rgb, resizeNN k b.depth, resizeNN k b.labels⟩
  | _, _ => b

/-- Crop stage of `_get_data` (`if crop:`): one pair of offsets, the
same square region extracted from all three modalities. -/
def augmentCrop (cfg : AugCfg) (r : AugRand) (b : RawBlob) : RawBlob :=
  match cfg.crop with
  | some crop => ⟨cropArr r.hc r.wc crop b.rgb, cropArr r.hc r.wc crop b.depth,
                  cropArr r.hc r.wc crop b.labels⟩
  | none => b

/-- The `hflip` stage of `_get_data`: one draw, and on success all three
modalities are flipped along axis 0. -/
def augmentHflip (cfg : AugCfg) (r : AugRand) (b : RawBlob) : RawBlob :=
  if cfg.hflip && r.hflipDraw then ⟨flipRows b.rgb, flipRows b.depth, flipRows b.labels⟩ else b

/-- The `vflip` stage of `_get_data`: one draw, and on success all three
modalities are flipped along axis 1. -/
def augmentVflip (cfg : AugCfg) (r : AugRand) (b : RawBlob) : RawBlob :=
  if cfg.vflip && r.vflipDraw then ⟨flipCols b.rgb, flipCols b.depth, flipCols b.labels⟩ else b

/-- Gamma stage of `_get_data` (`if gamma:`): the lookup table is
applied to the RGB values only; depth and labels are untouched. -/
def augmentGamma (cfg : AugCfg) (r : AugRand) (b : RawBlob) : RawBlob :=
  match cfg.gamma with
  | some _ => ⟨mapPix (fun p c => r.gammaMap (p c)) b.rgb, b.depth, b.labels⟩
  | none => b

/-- The full augmentation pipeline of `_get_data`, in source order:
scale, crop, hflip, vflip, gamma. -/
def augment (cfg : AugCfg) (r : AugRand) (b : RawBlob) : RawBlob :=
  augmentGamma cfg r (augmentVflip cfg r (augmentHflip cfg r
    (augmentCrop cfg r (augmentScale cfg r b))))

/-- The blob of a `training_format=True` call just before the final
dimension normalization: labels remapped once, then augmented, then
one-hot encoded; depth gets its channel axis. -/
def getDataTrainPre (cfg : AugCfg) (r : AugRand) (raw : RawBlob) : TrainBlob :=
  let b := augment cfg r ⟨raw.rgb, raw.depth, remapArr raw.labels⟩
  ⟨b.rgb, expandDims b.depth, oneHotArr b.labels⟩

/-- The final dimension normalization of `_get_data`: `h_c = h - h % 16`
and `w_c = w - w % 16` are computed from the RGB shape, and the slice
`[:h_c, :w_c, ...]` is applied to all three modalities. -/
def forceMult16 (t : TrainBlob) : TrainBlob :=
  let hC := t.rgb.h - t.rgb.h % 16
  let wC := t.rgb.w - t.rgb.w % 16
  ⟨takeArr hC wC t.rgb, takeArr hC wC t.depth, takeArr hC wC t.labels⟩

/-- The blob returned by `_get_data` with `training_format=True`. -/
def getDataTrain (cfg : AugCfg) (r : AugRand) (raw : RawBlob) : TrainBlob :=
  forceMult16 (getDataTrainPre cfg r raw)

/-- The blob of a `training_format=False` call just before the final
dimension normalization: labels remapped once, no augmentation, no
one-hot; depth gets its channel axis. -/
def getDataEvalPre (raw : RawBlob) : EvalBlob :=
  ⟨raw.rgb, expandDims raw.depth, remapArr raw.labels⟩

/-- The final dimension normalization for an evaluation-format blob. -/
def forceMult16Eval (t : EvalBlob) : EvalBlob :=
  let hC := t.rgb.h - t.rgb.h % 16
  let wC := t.rgb.w - t.rgb.w % 16
  ⟨takeArr hC wC t.rgb, takeArr hC wC t.depth, takeArr hC wC t.labels⟩

/-- The blob returned by `_get_data` with `training_format=False`. -/
def getDataEval (raw : RawBlob) : EvalBlob :=
  forceMult16Eval (getDataEvalPre raw)

/-- The three raw modality arrays of one sample have equal heights and
equal widths. -/
def dimsAligned (b : RawBlob) : Prop :=
  b.depth.h = b.rgb.h ∧ b.depth.w = b.rgb.w ∧ b.labels.h = b.rgb.h ∧ b.labels.w = b.rgb.w

@[simp] theorem resizeLinear_h (k : ℚ) (a : Arr (Fin 3 → ℚ)) :
    (resizeLinear k a).h = resizedDim a.h k := rfl

@[simp] theorem resizeLinear_w (k : ℚ) (a : Arr (Fin 3 → ℚ)) :
    (resizeLinear k a).w = resizedDim a.w k := rfl

@[simp] theorem resizeNN_h {α : Type} (k : ℚ) (a : Arr α) :
    (resizeNN k a).h = resizedDim a.h k := rfl

@[simp] theorem resizeNN_w {α : Type} (k : ℚ) (a : Arr α) :
    (resizeNN k a).w = resizedDim a.w k := rfl

@[simp] theorem cropArr_h {α : Type} (hc wc c : ℕ) (a : Arr α) :
    (cropArr hc wc c a).h = sliceLen a.h hc c := rfl

@[simp] theorem cropArr_w {α : Type} (hc wc c : ℕ) (a : Arr α) :
    (cropArr hc wc c a).w = sliceLen a.w wc c := rfl

@[simp] theorem cropArr_pix {α : Type} (hc wc c : ℕ) (a : Arr α) (i j : ℕ) :
    (cropArr hc wc c a).pix i j = a.pix (hc + i) (wc + j) := rfl

@[simp] theorem flipRows_h {α : Type} (a : Arr α) : (flipRows a).h = a.h := by simp only [flipRows]

@[simp] theorem flipRows_w {α : Type} (a : Arr α) : (flipRows a).w = a.w := by simp only [flipRows]

@[simp] theorem flipRows_pix {α : Type} (a : Arr α) (i j : ℕ) :
    (flipRows a).pix i j = a.pix (a.h - 1 - i) j := rfl

@[simp] theorem flipCols_h {α : Type} (a : Arr α) : (flipCols a).h = a.h := by simp only [flipCols]

@[simp] theorem flipCols_w {α : Type} (a : Arr α) : (flipCols a).w = a.w := by simp only [flipCols]

@[simp] theorem flipCols_pix {α : Type} (a : Arr α) (i j : ℕ) :
    (flipCols a).pix i j = a.pix i (a.w - 1 - j) := rfl

@[simp] theorem mapPix_h {α β : Type} (f : α → β) (a : Arr α) : (mapPix f a).h = a.h := by simp only [mapPix]

@[simp] theorem mapPix_w {α β : Type} (f : α → β) (a : Arr α) : (mapPix f a).w = a.w := by simp only [mapPix]

@[simp] theorem mapPix_pix {α β : Type} (f : α → β) (a : Arr α) (i j : ℕ) :
    (mapPix f a).pix i j = f (a.pix i j) := rfl

@[simp] theorem expandDims_h (a : Arr ℕ) : (expandDims a).h = a.h := by simp only [expandDims]

@[simp] theorem expandDims_w (a : Arr ℕ) : (expandDims a).w = a.w := by simp only [expandDims]

@[simp] theorem oneHotArr_h (a : Arr ℕ) : (oneHotArr a).h = a.h := by simp only [oneHotArr]

@[simp] theorem oneHotArr_w (a : Arr ℕ) : (oneHotArr a).w = a.w := by simp only [oneHotArr]

@[simp] theorem remapArr_h (a : Arr ℕ) : (remapArr a).h = a.h := by simp only [remapArr]

@[simp] theorem remapArr_w (a : Arr ℕ) : (remapArr a).w = a.w := by simp only [remapArr]

@[simp] theorem takeArr_h {α : Type} (hC wC : ℕ) (a : Arr α) :
    (takeArr hC wC a).h = min hC a.h := rfl

@[simp] theorem takeArr_w {α : Type} (hC wC : ℕ) (a : Arr α) :
    (takeArr hC wC a).w = min wC a.w := rfl

@[simp] theorem takeArr_pix {α : Type} (hC wC : ℕ) (a : Arr α) :
    (takeArr hC wC a).pix = a.pix := by simp only [takeArr]

/-- Helper: the scale stage keeps aligned shapes aligned. -/
theorem dimsAligned_augmentScale (cfg : AugCfg) (r : AugRand) (b : RawBlob)
    (hb : dimsAligned b) : dimsAligned (augmentScale cfg r b) := by
  obtain ⟨h1, h2, h3, h4⟩ := hb
  rcases hs : cfg.scale with _ | ⟨s0, s1⟩ <;> rcases hc : cfg.crop with _ | c <;>
    simp only [augmentScale, hs, hc] <;>
    exact ⟨by simp [h1, h2, h3, h4], by simp [h1, h2, h3, h4],
      by simp [h1, h2, h3, h4], by simp [h1, h2, h3, h4]⟩

/-- Helper: the crop stage keeps aligned shapes aligned. -/
theorem dimsAligned_augmentCrop (cfg : AugCfg) (r : AugRand) (b : RawBlob)
    (hb : dimsAligned b) : dimsAligned (augmentCrop cfg r b) := by
  obtain ⟨h1, h2, h3, h4⟩ := hb
  rcases hc : cfg.crop with _ | c <;> simp only [augmentCrop, hc] <;>
    exact ⟨by simp [h1, h2, h3, h4], by simp [h1, h2, h3, h4],
      by simp [h1, h2, h3, h4], by simp [h1, h2, h3, h4]⟩

/-- Helper: the hflip stage keeps aligned shapes aligned. -/
theorem dimsAligned_augmentHflip (cfg : AugCfg) (r : AugRand) (b : RawBlob)
    (hb : dimsAligned b) : dimsAligned (augmentHflip cfg r b) := by
  obtain ⟨h1, h2, h3, h4⟩ := hb
  by_cases hf : (cfg.hflip && r.hflipDraw) = true <;>
    simp only [augmentHflip, hf, if_true, if_false, Bool.not_eq_true] at * <;>
    exact ⟨by simp [h1], by simp [h2], by simp [h3], by simp [h4]⟩

/-- Helper: the vflip stage keeps aligned shapes aligned. -/
theorem dimsAligned_augmentVflip (cfg : AugCfg) (r : AugRand) (b : RawBlob)
    (hb : dimsAligned b) : dimsAligned (augmentVflip cfg r b) := by
  obtain ⟨h1, h2, h3, h4⟩ := hb
  by_cases hf : (cfg.vflip && r.vflipDraw) = true <;>
    simp only [augmentVflip, hf, if_true, if_false, Bool.not_eq_true] at * <;>
    exact ⟨by simp [h1], by simp [h2], by simp [h3], by simp [h4]⟩

/-- Helper: the gamma stage keeps aligned shapes aligned. -/
theorem dimsAligned_augmentGamma (cfg : AugCfg) (r : AugRand) (b : RawBlob)
    (hb : dimsAligned b) : dimsAligned (augmentGamma cfg r b) := by
  obtain ⟨h1, h2, h3, h4⟩ := hb
  rcases hg : cfg.gamma with _ | g <;> simp only [augmentGamma, hg] <;>
    exact ⟨by simp [h1], by simp [h2], by simp [h3], by simp [h4]⟩

/-- Helper: every stage of the augmentation pipeline applies the same
geometry to all three modalities, so aligned shapes stay aligned. -/
theorem dimsAligned_augment (cfg : AugCfg) (r : AugRand) (b : RawBlob)
    (hb : dimsAligned b) : dimsAligned (augment cfg r b) :=
  dimsAligned_augmentGamma cfg r _ (dimsAligned_augmentVflip cfg r _
    (dimsAligned_augmentHflip cfg r _ (dimsAligned_augmentCrop cfg r _
      (dimsAligned_augmentScale cfg r _ hb))))

/-- Helper: a one-hot vector always has length `numClasses`. -/
theorem oneHot_length (v : ℕ) : (oneHot v).length = numClasses := by
  simp [oneHot, one_hot_lookup]

/-- The dimension invariant for a training-format blob `t` produced
from the pre-normalization blob `pre`: one shared height and width,
each divisible by 16, the one-hot trailing axis of length `numClasses`,
and pixel functions untouched by the final normalization (so only
trailing rows and columns were dropped). -/
def trainBlobNormalized (t pre : TrainBlob) : Prop :=
  ∃ H W,
    t.rgb.h = H ∧ t.rgb.w = W ∧ t.depth.h = H ∧ t.depth.w = W ∧
    t.labels.h = H ∧ t.labels.w = W ∧ 16 ∣ H ∧ 16 ∣ W ∧
    (∀ i j, (t.labels.pix i j).length = numClasses) ∧
    t.rgb.pix = pre.rgb.pix ∧ t.depth.pix = pre.depth.pix ∧ t.labels.pix = pre.labels.pix

/-- The dimension invariant for an evaluation-format blob `t` produced
from the pre-normalization blob `pre`. -/
def evalBlobNormalized (t pre : EvalBlob) : Prop :=
  ∃ H W,
    t.rgb.h = H ∧ t.rgb.w = W ∧ t.depth.h = H ∧ t.depth.w = W ∧
    t.labels.h = H ∧ t.labels.w = W ∧ 16 ∣ H ∧ 16 ∣ W ∧
    t.rgb.pix = pre.rgb.pix ∧ t.depth.pix = pre.depth.pix ∧ t.labels.pix = pre.labels.pix

/-- Helper: after remapping, augmentation, channel expansion and one-hot
conversion, the three modalities of the pre-normalization training blob
still share their height and width. -/
theorem getDataTrainPre_aligned (cfg : AugCfg) (r : AugRand) (raw : RawBlob)
    (hal : dimsAligned raw) :
    (getDataTrainPre cfg r raw).depth.h = (getDataTrainPre cfg r raw).rgb.h ∧
    (getDataTrainPre cfg r raw).depth.w = (getDataTrainPre cfg r raw).rgb.w ∧
    (getDataTrainPre cfg r raw).labels.h = (getDataTrainPre cfg r raw).rgb.h ∧
    (getDataTrainPre cfg r raw).labels.w = (getDataTrainPre cfg r raw).rgb.w := by
  obtain ⟨g1, g2, g3, g4⟩ := hal
  have hal0 : dimsAligned ⟨raw.rgb, raw.depth, remapArr raw.labels⟩ := by
    refine ⟨g1, g2, ?_, ?_⟩ <;> simp [g3, g4]
  obtain ⟨b1, b2, b3, b4⟩ := dimsAligned_augment cfg r _ hal0
  simp only [getDataTrainPre]
  exact ⟨by simp [b1], by simp [b2], by simp [b3], by simp [b4]⟩

/-- Helper: the pre-normalization evaluation blob has aligned
modalities. -/
theorem getDataEvalPre_aligned (raw : RawBlob) (hal : dimsAligned raw) :
    (getDataEvalPre raw).depth.h = (getDataEvalPre raw).rgb.h ∧
    (getDataEvalPre raw).depth.w = (getDataEvalPre raw).rgb.w ∧
    (getDataEvalPre raw).labels.h = (getDataEvalPre raw).rgb.h ∧
    (getDataEvalPre raw).labels.w = (getDataEvalPre raw).rgb.w := by
  obtain ⟨g1, g2, g3, g4⟩ := hal
  simp only [getDataEvalPre]
  exact ⟨by simp [g1], by simp [g2], by simp [g3], by simp [g4]⟩

/-- Helper: the final normalization slices every modality to the RGB
height and width rounded down to multiples of 16 and keeps every pixel
function unchanged. -/
theorem forceMult16_dims (t : TrainBlob)
    (h1 : t.depth.h = t.rgb.h) (h2 : t.depth.w = t.rgb.w)
    (h3 : t.labels.h = t.rgb.h) (h4 : t.labels.w = t.rgb.w) :
    (forceMult16 t).rgb.h = t.rgb.h - t.rgb.h % 16 ∧
    (forceMult16 t).rgb.w = t.rgb.w - t.rgb.w % 16 ∧
    (forceMult16 t).depth.h = t.rgb.h - t.rgb.h % 16 ∧
    (forceMult16 t).depth.w = t.rgb.w - t.rgb.w % 16 ∧
    (forceMult16 t).labels.h = t.rgb.h - t.rgb.h % 16 ∧
    (forceMult16 t).labels.w = t.rgb.w - t.rgb.w % 16 ∧
    (forceMult16 t).rgb.pix = t.rgb.pix ∧
    (forceMult16 t).depth.pix = t.depth.pix ∧
    (forceMult16 t).labels.pix = t.labels.pix := by
  simp only [forceMult16]
  refine ⟨?_, ?_, ?_, ?_, ?_, ?_, ?_, ?_, ?_⟩ <;>
    simp [h1, h2, h3, h4, Nat.min_eq_left, Nat.sub_le]

/-- Helper: the final normalization of an evaluation-format blob. -/
theorem forceMult16Eval_dims (t : EvalBlob)
    (h1 : t.depth.h = t.rgb.h) (h2 : t.depth.w = t.rgb.w)
    (h3 : t.labels.h = t.rgb.h) (h4 : t.labels.w = t.rgb.w) :
    (forceMult16Eval t).rgb.h = t.rgb.h - t.rgb.h % 16 ∧
    (forceMult16Eval t).rgb.w = t.rgb.w - t.rgb.w % 16 ∧
    (forceMult16Eval t).depth.h = t.rgb.h - t.rgb.h % 16 ∧
    (forceMult16Eval t).depth.w = t.rgb.w - t.rgb.w % 16 ∧
    (forceMult16Eval t).labels.h = t.rgb.h - t.rgb.h % 16 ∧
    (forceMult16Eval t).labels.w = t.rgb.w - t.rgb.w % 16 ∧
    (forceMult16Eval t).rgb.pix = t.rgb.pix ∧
    (forceMult16Eval t).depth.pix = t.depth.pix ∧
    (forceMult16Eval t).labels.pix = t.labels.pix := by
  simp only [forceMult16Eval]
  refine ⟨?_, ?_, ?_, ?_, ?_, ?_, ?_, ?_, ?_⟩ <;>
    simp [h1, h2, h3, h4, Nat.min_eq_left, Nat.sub_le]

/-- CLAIM C4 (dimension invariant): for aligned input modalities, the
blob returned by `_get_data` has a single height `H` and width `W`
shared by all three arrays (RGB carrying 3 channels in its pixel type,
depth its appended singleton channel axis, labels either flat or a
trailing one-hot axis of length `numClasses` according to
`training_format`), both divisible by 16; the divisibility is obtained
by the last pipeline step, which keeps every pixel function unchanged
and only drops trailing rows and columns, after augmentation. -/
theorem dim_invariant (cfg : AugCfg) (r : AugRand) (raw : RawBlob)
    (hal : dimsAligned raw) :
    trainBlobNormalized (getDataTrain cfg r raw) (getDataTrainPre cfg r raw) ∧
    evalBlobNormalized (getDataEval raw) (getDataEvalPre raw) := by
  constructor
  · obtain ⟨a1, a2, a3, a4⟩ := getDataTrainPre_aligned cfg r raw hal
    obtain ⟨d1, d2, d3, d4, d5, d6, p1, p2, p3⟩ :=
      forceMult16_dims (getDataTrainPre cfg r raw) a1 a2 a3 a4
    simp only [trainBlobNormalized, getDataTrain]
    refine ⟨_, _, d1, d2, d3, d4, d5, d6, Nat.dvd_sub_mod _, Nat.dvd_sub_mod _,
      ?_, p1, p2, p3⟩
    intro i j
    rw [p3]
    simp [getDataTrainPre, oneHotArr, oneHot_length]
  · obtain ⟨a1, a2, a3, a4⟩ := getDataEvalPre_aligned raw hal
    obtain ⟨d1, d2, d3, d4, d5, d6, p1, p2, p3⟩ :=
      forceMult16Eval_dims (getDataEvalPre raw) a1 a2 a3 a4
    simp only [evalBlobNormalized, getDataEval]
    exact ⟨_, _, d1, d2, d3, d4, d5, d6, Nat.dvd_sub_mod _, Nat.dvd_sub_mod _, p1, p2, p3⟩

/-- A concrete raw blob of constant 20 x 24 modalities, to instantiate
the universally quantified theorems. -/
def sampleRaw : RawBlob :=
  ⟨⟨20, 24, fun _ _ _ => 100⟩, ⟨20, 24, fun _ _ => 7⟩, ⟨20, 24, fun _ _ => 3⟩⟩

/-- A concrete configuration with every stage enabled. -/
def sampleCfg : AugCfg := ⟨some (1, 1), some 16, false, true, some (1, 2)⟩

/-- A concrete draw record. -/
def sampleRand : AugRand := ⟨0, 0, 0, false, false, id⟩

/-- Witness for C4 at the concrete sample and configuration. -/
theorem dim_invariant_witness :
    trainBlobNormalized (getDataTrain sampleCfg sampleRand sampleRaw)
      (getDataTrainPre sampleCfg sampleRand sampleRaw) ∧
    evalBlobNormalized (getDataEval sampleRaw) (getDataEvalPre sampleRaw) :=
  dim_invariant sampleCfg sampleRand sampleRaw ⟨rfl, rfl, rfl, rfl⟩

/-- The common source coordinate, in the post-scale image, from which
output pixel `(i, j)` of the augmentation pipeline is read: the crop
offsets `r.hc` / `r.wc` shifted by the (possibly flipped) in-crop
position.  The same map serves all three modalities. -/
def augSrc (cfg : AugCfg) (r : AugRand) (crop i j : ℕ) : ℕ × ℕ :=
  (r.hc + (if cfg.hflip && r.hflipDraw then crop - 1 - i else i),
   r.wc + (if cfg.vflip && r.vflipDraw then crop - 1 - j else j))

/-- The value transformation the gamma stage applies to one RGB scalar
(the identity when gamma is disabled). -/
def gammaVal (cfg : AugCfg) (r : AugRand) (v : ℚ) : ℚ :=
  match cfg.gamma with
  | some _ => r.gammaMap v
  | none => v

/-- CLAIM C5 (spatial alignment): with scale and crop configured, the
augmentation draws one scale factor, one pair of crop offsets and one
decision per flip, and applies them identically to RGB, depth and
labels: every output pixel `(i, j)` of each modality is read from the
single shared source coordinate `augSrc cfg r crop i j` of that
modality's resize by the one drawn factor (RGB additionally passes
through the gamma value map, which does not move pixels). -/
theorem spatial_alignment (cfg : AugCfg) (r : AugRand) (b : RawBlob)
    (s0 s1 : ℚ) (crop : ℕ)
    (hs : cfg.scale = some (s0, s1)) (hc : cfg.crop = some crop)
    (hal : dimsAligned b)
    (hhv : r.hc + crop ≤ resizedDim b.rgb.h (scaleDraw s0 s1 crop b.rgb.h b.rgb.w r.tScale))
    (hwv : r.wc + crop ≤ resizedDim b.rgb.w (scaleDraw s0 s1 crop b.rgb.h b.rgb.w r.tScale))
    (i j : ℕ) :
    (augment cfg r b).depth.pix i j =
      (resizeNN (scaleDraw s0 s1 crop b.rgb.h b.rgb.w r.tScale) b.depth).pix
        (augSrc cfg r crop i j).1 (augSrc cfg r crop i j).2 ∧
    (augment cfg r b).labels.pix i j =
      (resizeNN (scaleDraw s0 s1 crop b.rgb.h b.rgb.w r.tScale) b.labels).pix
        (augSrc cfg r crop i j).1 (augSrc cfg r crop i j).2 ∧
    ∀ ch, (augment cfg r b).rgb.pix i j ch =
      gammaVal cfg r
        ((resizeLinear (scaleDraw s0 s1 crop b.rgb.h b.rgb.w r.tScale) b.rgb).pix
          (augSrc cfg r crop i j).1 (augSrc cfg r crop i j).2 ch) := by
  obtain ⟨a1, a2, a3, a4⟩ := hal
  have hdh : sliceLen (resizedDim b.depth.h (scaleDraw s0 s1 crop b.rgb.h b.rgb.w r.tScale))
      r.hc crop = crop := by
    rw [a1]; simp only [sliceLen]; omega
  have hdw : sliceLen (resizedDim b.depth.w (scaleDraw s0 s1 crop b.rgb.h b.rgb.w r.tScale))
      r.wc crop = crop := by
    rw [a2]; simp only [sliceLen]; omega
  have hlh : sliceLen (resizedDim b.labels.h (scaleDraw s0 s1 crop b.rgb.h b.rgb.w r.tScale))
      r.hc crop = crop := by
    rw [a3]; simp only [sliceLen]; omega
  have hlw : sliceLen (resizedDim b.labels.w (scaleDraw s0 s1 crop b.rgb.h b.rgb.w r.tScale))
      r.wc crop = crop := by
    rw [a4]; simp only [sliceLen]; omega
  have hrh : sliceLen (resizedDim b.rgb.h (scaleDraw s0 s1 crop b.rgb.h b.rgb.w r.tScale))
      r.hc crop = crop := by
    simp only [sliceLen]; omega
  have hrw : sliceLen (resizedDim b.rgb.w (scaleDraw s0 s1 crop b.rgb.h b.rgb.w r.tScale))
      r.wc crop = crop := by
    simp only [sliceLen]; omega
  simp only [augment, augmentScale, augmentCrop, hs, hc]
  rcases hg : cfg.gamma with _ | gp <;>
    cases hhf : cfg.hflip && r.hflipDraw <;> cases hvf : cfg.vflip && r.vflipDraw <;>
    exact ⟨by simp [augmentHflip, augmentVflip, augmentGamma, hg, hhf, hvf, augSrc,
        hdh, hdw, hlh, hlw, hrh, hrw],
      by simp [augmentHflip, augmentVflip, augmentGamma, hg, hhf, hvf, augSrc,
        hdh, hdw, hlh, hlw, hrh, hrw],
      fun ch => by simp [augmentHflip, augmentVflip, augmentGamma, gammaVal, hg, hhf, hvf,
        augSrc, hdh, hdw, hlh, hlw, hrh, hrw]⟩

/-- Witness for C5 at the sample configuration and draw, output pixel
(3, 4). -/
theorem spatial_alignment_witness :
    (augment sampleCfg sampleRand sampleRaw).depth.pix 3 4 =
      (resizeNN (scaleDraw 1 1 16 sampleRaw.rgb.h sampleRaw.rgb.w sampleRand.tScale)
        sampleRaw.depth).pix
        (augSrc sampleCfg sampleRand 16 3 4).1 (augSrc sampleCfg sampleRand 16 3 4).2 ∧
    (augment sampleCfg sampleRand sampleRaw).labels.pix 3 4 =
      (resizeNN (scaleDraw 1 1 16 sampleRaw.rgb.h sampleRaw.rgb.w sampleRand.tScale)
        sampleRaw.labels).pix
        (augSrc sampleCfg sampleRand 16 3 4).1 (augSrc sampleCfg sampleRand 16 3 4).2 ∧
    ∀ ch, (augment sampleCfg sampleRand sampleRaw).rgb.pix 3 4 ch =
      gammaVal sampleCfg sampleRand
        ((resizeLinear (scaleDraw 1 1 16 sampleRaw.rgb.h sampleRaw.rgb.w sampleRand.tScale)
          sampleRaw.rgb).pix
          (augSrc sampleCfg sampleRand 16 3 4).1 (augSrc sampleCfg sampleRand 16 3 4).2 ch) :=
  spatial_alignment sampleCfg sampleRand sampleRaw 1 1 16 rfl rfl
    ⟨rfl, rfl, rfl, rfl⟩
    (by norm_num [sampleRand, sampleRaw, resizedDim, scaleDraw, uniformDraw, minScale,
      natRound])
    (by norm_num [sampleRand, sampleRaw, resizedDim, scaleDraw, uniformDraw, minScale,
      natRound])
    3 4

/-- CLAIM C6, code evaluated at the failing input (scale floor
scenario): for a 300 x 400 image with crop 480 and configured range
[0.7, 1.5] the minimum feasible factor is 480/300 = 1.6, but the call
`random.uniform(max(1.6, 0.7), 1.5)` = `uniform(1.6, 1.5)` reaches 1.5
(at unit draw 1), strictly below that floor; the image scaled by 1.5 is
450 < 480 pixels high, so the following crop offset call
`random.randint(0, 450 - 480)` has an empty range and raises
`ValueError`. -/
theorem scale_floor_code_bug :
    minScale 480 300 400 = 8 / 5 ∧
    scaleDraw (7 / 10) (3 / 2) 480 300 400 1 = 3 / 2 ∧
    scaleDraw (7 / 10) (3 / 2) 480 300 400 1 < minScale 480 300 400 ∧
    resizedDim 300 (scaleDraw (7 / 10) (3 / 2) 480 300 400 1) = 450 ∧
    ¬ randintRangeOk 0 ((450 : ℤ) - 480) := by
  refine ⟨?_, ?_, ?_, ?_, ?_⟩ <;>
    norm_num [minScale, scaleDraw, uniformDraw, resizedDim, natRound, randintRangeOk] <;>
    decide

/-- Whether a path string is absolute (begins with a slash). -/
def startsSlash (s : String) : Bool :=
  match s.data with
  | [] => false
  | c :: _ => c = '/'

/-- Whether a path string already ends with a slash. -/
def endsSlash (s : String) : Bool :=
  match s.data.getLast? with
  | some c => c = '/'
  | none => false

/-- One step of Python `os.path.join`: an absolute second component
discards everything accumulated so far. -/
def ospjoin2 (a b : String) : String :=
  if startsSlash b then b
  else if a = "" then b
  else if endsSlash a then a ++ b
  else a ++ "/" ++ b

/-- Python `os.path.join` over a list of components. -/
def ospathJoin : List String → String
  | [] => ""
  | p :: rest => rest.foldl ospjoin2 p

/-- The payload of the `IOError` raised by `__init__`: errno, message,
offending filename. -/
structure IOErr where
  errno : ℕ
  msg : String
  filename : String
deriving DecidableEq

/-- The content of a persisted `train_test_split.json` file. -/
structure SplitFile where
  trainset : List String
  testset : List String

/-- A sample descriptor as built by `__init__`
(`{'image_name': filename}`). -/
structure Desc where
  image_name : String
deriving DecidableEq

/-- Modelled from the spec: `DataBaseclass` (the abstract base, not
under `src/`) stores the descriptor lists, batch size and modality
names passed by `SynthiaCityscapes.__init__` unchanged, exposing the
train and test partitions. -/
structure Driver where
  trainset : List Desc
  testset : List Desc
  modalities : List String
  batchsize : ℕ
deriving DecidableEq

/-- The error message printed and raised by `__init__`. -/
def missingRootMsg : String := "ERROR: Path to SYNTHIA dataset does not exist."

/-- The constructor `SynthiaCityscapes.__init__`, parameterized by the
filesystem (`fsExists` abstracts `os.path.exists`, `readSplit`
abstracts opening and json-decoding a split file).  When the base path
exists, the persisted split lists are loaded and wrapped into
descriptors directly — no regeneration, no reordering, no verification;
`forcePreprocessing` is accepted but, as in the source, never consulted
on this path. -/
def initDriver (fsExists : String → Bool) (readSplit : String → SplitFile)
    (basePath : String) (forcePreprocessing : Bool) (batchsize : ℕ) :
    Except IOErr Driver :=
  if fsExists basePath then
    let basepath := ospjoin2 basePath "RAND_CITYSCAPES"
    let split := readSplit (ospjoin2 basepath "train_test_split.json")
    Except.ok ⟨split.trainset.map Desc.mk, split.testset.map Desc.mk,
      ["rgb", "depth", "labels"], batchsize⟩
  else
    Except.error ⟨1, missingRootMsg, basePath⟩

/-- CLAIM C9 (missing dataset root is fatal): whenever the base path
does not exist, construction raises the I/O error carrying errno 1, the
fixed message and the bad path, before reading any split file (the
result does not depend on `readSplit`), and never returns a driver. -/
theorem missing_root_fatal (fsExists : String → Bool) (readSplit : String → SplitFile)
    (basePath : String) (fp : Bool) (bs : ℕ) (h : fsExists basePath = false) :
    initDriver fsExists readSplit basePath fp bs =
      Except.error ⟨1, missingRootMsg, basePath⟩ ∧
    (∀ rs2 : String → SplitFile, initDriver fsExists rs2 basePath fp bs =
      initDriver fsExists readSplit basePath fp bs) ∧
    ∀ d : Driver, initDriver fsExists readSplit basePath fp bs ≠ Except.ok d := by
  refine ⟨by simp [initDriver, h], fun rs2 => by simp [initDriver, h], fun d hd => ?_⟩
  rw [show initDriver fsExists readSplit basePath fp bs =
      Except.error ⟨1, missingRootMsg, basePath⟩ from by simp [initDriver, h]] at hd
  exact Except.noConfusion hd

/-- Witness for C9 at a concrete absent path. -/
theorem missing_root_fatal_witness :
    initDriver (fun _ => false) (fun _ => ⟨[], []⟩) "/missing" false 1 =
      Except.error ⟨1, missingRootMsg, "/missing"⟩ ∧
    (∀ rs2 : String → SplitFile, initDriver (fun _ => false) rs2 "/missing" false 1 =
      initDriver (fun _ => false) (fun _ => ⟨[], []⟩) "/missing" false 1) ∧
    ∀ d : Driver, initDriver (fun _ => false) (fun _ => ⟨[], []⟩) "/missing" false 1 ≠
      Except.ok d :=
  missing_root_fatal (fun _ => false) (fun _ => ⟨[], []⟩) "/missing" false 1 rfl

/-- CLAIM C7 (split stability): with an existing split file holding
trainset ["a", "b"] and testset ["c"], construction without
force-preprocessing returns exactly those two partitions wrapped as
descriptors, unmodified; they are disjoint and together cover exactly
{a, b, c}; and in general the loaded lists are the persisted lists,
mapped to descriptors with no other change. -/
theorem split_stability (fsExists : String → Bool) (readSplit : String → SplitFile)
    (basePath : String) (bs : ℕ)
    (hfs : fsExists basePath = true)
    (hread : ∀ p, readSplit p = ⟨["a", "b"], ["c"]⟩) :
    initDriver fsExists readSplit basePath false bs =
      Except.ok ⟨[⟨"a"⟩, ⟨"b"⟩], [⟨"c"⟩], ["rgb", "depth", "labels"], bs⟩ ∧
    (∀ x : Desc, x ∈ ([⟨"a"⟩, ⟨"b"⟩] : List Desc) → x ∉ ([⟨"c"⟩] : List Desc)) ∧
    (∀ x : Desc, (x ∈ ([⟨"a"⟩, ⟨"b"⟩] : List Desc) ∨ x ∈ ([⟨"c"⟩] : List Desc)) ↔
      x ∈ ([⟨"a"⟩, ⟨"b"⟩, ⟨"c"⟩] : List Desc)) ∧
    ∀ rs2 : String → SplitFile, ∃ d : Driver,
      initDriver fsExists rs2 basePath false bs = Except.ok d ∧
      d.trainset = (rs2 (ospjoin2 (ospjoin2 basePath "RAND_CITYSCAPES")
        "train_test_split.json")).trainset.map Desc.mk ∧
      d.testset = (rs2 (ospjoin2 (ospjoin2 basePath "RAND_CITYSCAPES")
        "train_test_split.json")).testset.map Desc.mk := by
  refine ⟨by simp [initDriver, hfs, hread], ?_, ?_, fun rs2 =>
    ⟨⟨(rs2 (ospjoin2 (ospjoin2 basePath "RAND_CITYSCAPES")
        "train_test_split.json")).trainset.map Desc.mk,
      (rs2 (ospjoin2 (ospjoin2 basePath "RAND_CITYSCAPES")
        "train_test_split.json")).testset.map Desc.mk,
      ["rgb", "depth", "labels"], bs⟩, by simp [initDriver, hfs], rfl, rfl⟩⟩
  · intro x hx hc
    simp only [List.mem_cons, List.mem_singleton, List.not_mem_nil, or_false] at hx hc
    rcases hx with h | h <;> subst h <;> exact Desc.noConfusion hc (fun he => by
      simp at he)
  · intro x
    simp [or_assoc]

/-- Witness for C7 at a concrete filesystem. -/
theorem split_stability_witness :
    initDriver (fun _ => true) (fun _ => ⟨["a", "b"], ["c"]⟩) "/data" false 4 =
      Except.ok ⟨[⟨"a"⟩, ⟨"b"⟩], [⟨"c"⟩], ["rgb", "depth", "labels"], 4⟩ ∧
    (∀ x : Desc, x ∈ ([⟨"a"⟩, ⟨"b"⟩] : List Desc) → x ∉ ([⟨"c"⟩] : List Desc)) ∧
    (∀ x : Desc, (x ∈ ([⟨"a"⟩, ⟨"b"⟩] : List Desc) ∨ x ∈ ([⟨"c"⟩] : List Desc)) ↔
      x ∈ ([⟨"a"⟩, ⟨"b"⟩, ⟨"c"⟩] : List Desc)) ∧
    ∀ rs2 : String → SplitFile, ∃ d : Driver,
      initDriver (fun _ => true) rs2 "/data" false 4 = Except.ok d ∧
      d.trainset = (rs2 (ospjoin2 (ospjoin2 "/data" "RAND_CITYSCAPES")
        "train_test_split.json")).trainset.map Desc.mk ∧
      d.testset = (rs2 (ospjoin2 (ospjoin2 "/data" "RAND_CITYSCAPES")
        "train_test_split.json")).testset.map Desc.mk :=
  split_stability (fun _ => true) (fun _ => ⟨["a", "b"], ["c"]⟩) "/data" 4 rfl (fun _ => rfl)

/-- The path tested by `_preprocessing` before generating a split
(`path.join(self.base_path, sequence, 'train_test_split.json')`). -/
def splitCheckPath (basePath seq : String) : String :=
  ospathJoin [basePath, seq, "train_test_split.json"]

/-- The path `_preprocessing` opens for writing the generated split
(`path.join(self.base_path, sequence, '/train_test_split.json')` —
note the leading slash in the source literal). -/
def splitWritePath (basePath seq : String) : String :=
  ospathJoin [basePath, seq, "/train_test_split.json"]

/-- CLAIM C8, code evaluated at the failing input: because the last
component passed to `os.path.join` is absolute, the generated split is
written to the filesystem root `/train_test_split.json`, not to the
sequence's split path under the dataset base that the existence check
(and `__init__`) use; the two paths differ. -/
theorem split_persist_path_bug :
    splitWritePath "/data/synthia" "RAND_CITYSCAPES" = "/train_test_split.json" ∧
    splitCheckPath "/data/synthia" "RAND_CITYSCAPES" =
      "/data/synthia/RAND_CITYSCAPES/train_test_split.json" ∧
    splitWritePath "/data/synthia" "RAND_CITYSCAPES" ≠
      splitCheckPath "/data/synthia" "RAND_CITYSCAPES" := by
  refine ⟨by decide, by decide, by decide⟩

/-- A value stored in the augmentation configuration dictionary. -/
inductive AugVal where
  | pairV : ℚ → ℚ → AugVal
  | natV : ℕ → AugVal
  | boolV : Bool → AugVal

/-- The default `config['augmentation']` dictionary built by
`__init__`: crop 480, scale [0.7, 1.5], vflip True, hflip False, gamma
[0.3, 2]. -/
def defaultAugmentation : String → Option AugVal := fun key =>
  if key = "crop" then some (AugVal.natV 480)
  else if key = "scale" then some (AugVal.pairV (7 / 10) (3 / 2))
  else if key = "vflip" then some (AugVal.boolV true)
  else if key = "hflip" then some (AugVal.boolV false)
  else if key = "gamma" then some (AugVal.pairV (3 / 10) 2)
  else none

/-- The effect of `config.update(data_config)` on the augmentation
entry: `dict.update` is one level deep, so a supplied entry replaces
the default dictionary wholesale (no key-by-key merge). -/
def configAugmentation (supplied : Option (String → Option AugVal)) :
    String → Option AugVal :=
  supplied.getD defaultAugmentation

/-- One `self.config['augmentation'][key]` subscript: `KeyError`
(carrying the key) when the key is absent. -/
def lookupKey (aug : String → Option AugVal) (key : String) : Except String AugVal :=
  match aug key with
  | some v => Except.ok v
  | none => Except.error key

/-- Interpretation of the stored scale entry at its use site (Python
truthiness: a falsy value disables the stage). -/
def toScale : AugVal → Option (ℚ × ℚ)
  | AugVal.pairV a b => some (a, b)
  | _ => none

/-- Interpretation of the stored crop entry (0 and False are falsy). -/
def toCrop : AugVal → Option ℕ
  | AugVal.natV 0 => none
  | AugVal.natV n => some n
  | _ => none

/-- Interpretation of a stored flip entry. -/
def toFlip : AugVal → Bool
  | AugVal.boolV b => b
  | _ => false

/-- Interpretation of the stored gamma entry. -/
def toGamma : AugVal → Option (ℚ × ℚ)
  | AugVal.pairV a b => some (a, b)
  | _ => none

@[simp] theorem except_bind_ok {ε α β : Type} (a : α) (f : α → Except ε β) :
    (Except.ok a >>= f) = f a := rfl

@[simp] theorem except_bind_error {ε α β : Type} (e : ε) (f : α → Except ε β) :
    ((Except.error e : Except ε α) >>= f) = Except.error e := rfl

/-- The blob returned by `_get_data`, whose label layout depends on the
format flag. -/
inductive DataBlob where
  | trainB : TrainBlob → DataBlob
  | evalB : EvalBlob → DataBlob

/-- `_get_data` including its configuration subscripts: with
`training_format=True` the five augmentation keys are read (a missing
one raises `KeyError` before any blob is produced); with
`training_format=False` no augmentation key is ever read. -/
def getData (aug : String → Option AugVal) (trainingFormat : Bool)
    (r : AugRand) (raw : RawBlob) : Except String DataBlob :=
  if trainingFormat then do
    let s ← lookupKey aug "scale"
    let c ← lookupKey aug "crop"
    let hf ← lookupKey aug "hflip"
    let vf ← lookupKey aug "vflip"
    let g ← lookupKey aug "gamma"
    Except.ok (DataBlob.trainB
      (getDataTrain ⟨toScale s, toCrop c, toFlip hf, toFlip vf, toGamma g⟩ r raw))
  else
    Except.ok (DataBlob.evalB (getDataEval raw))

/-- CLAIM C10 (augmentation config replaced, not merged): a supplied
augmentation dictionary becomes the configuration unchanged (no merge
with the defaults), and when it misses any of the keys scale, crop,
hflip, vflip, gamma, every training-format `_get_data` call fails with
a key-lookup error for a missing key before producing a blob, while
every evaluation-format call still succeeds. -/
theorem augmentation_replaced_not_merged (aug : String → Option AugVal)
    (hmiss : aug "scale" = none ∨ aug "crop" = none ∨ aug "hflip" = none ∨
      aug "vflip" = none ∨ aug "gamma" = none) :
    configAugmentation (some aug) = aug ∧
    (∀ (r : AugRand) (raw : RawBlob), ∃ key,
      getData aug true r raw = Except.error key ∧ aug key = none) ∧
    (∀ (r : AugRand) (raw : RawBlob),
      getData aug false r raw = Except.ok (DataBlob.evalB (getDataEval raw))) := by
  refine ⟨rfl, ?_, fun r raw => by simp [getData]⟩
  intro r raw
  rcases h1 : aug "scale" with _ | v1
  · exact ⟨"scale", by simp [getData, lookupKey, h1], h1⟩
  rcases h2 : aug "crop" with _ | v2
  · exact ⟨"crop", by simp [getData, lookupKey, h1, h2], h2⟩
  rcases h3 : aug "hflip" with _ | v3
  · exact ⟨"hflip", by simp [getData, lookupKey, h1, h2, h3], h3⟩
  rcases h4 : aug "vflip" with _ | v4
  · exact ⟨"vflip", by simp [getData, lookupKey, h1, h2, h3, h4], h4⟩
  rcases h5 : aug "gamma" with _ | v5
  · exact ⟨"gamma", by simp [getData, lookupKey, h1, h2, h3, h4, h5], h5⟩
  rcases hmiss with h | h | h | h | h <;> simp_all

/-- A concrete augmentation dictionary holding only the crop key. -/
def missingAug : String → Option AugVal :=
  fun key => if key = "crop" then some (AugVal.natV 16) else none

/-- Witness for C10 at the crop-only dictionary. -/
theorem augmentation_replaced_not_merged_witness :
    configAugmentation (some missingAug) = missingAug ∧
    (∀ (r : AugRand) (raw : RawBlob), ∃ key,
      getData missingAug true r raw = Except.error key ∧ missingAug key = none) ∧
    (∀ (r : AugRand) (raw : RawBlob),
      getData missingAug false r raw = Except.ok (DataBlob.evalB (getDataEval raw))) :=
  augmentation_replaced_not_merged missingAug (Or.inl (by simp [missingAug]))

end Synthia
